import Mathlib

/-!
Shallow embedding of load_sio.py (module load_sio), a reader for the SIO
binary sensor-recording format.  The file layout is: an 8 times int32 header
block, a 24-byte name field, a 72-byte comment field, then channel-interleaved
fixed-length records of int16 or float32 samples.

Modelling conventions:
* Header words are the unsigned 32-bit values decoded little-endian from the
  file (numpy reads them as little-endian int32; every comparison the code
  performs, against 32677, 4 and 2, is unaffected by the signed reading for
  words below 2^31, and a word at or above 2^31 is negative as int32 and so
  also unequal to those constants, so Nat values are faithful).
* The memory map produced by np.memmap is abstracted as a total function
  sioMap : record index -> channel index -> intra-record offset -> sample,
  since loadFromMap touches the file only through that three-index view.
  Samples are carried as Int (the byte-identity claims are about positions,
  not about the scalar decoding).
* numpy slice semantics (clamping at the array bounds) are mirrored with
  List.drop / List.take / min; np.concatenate over an empty sequence of
  record blocks raises ValueError, mirrored as an Except.error.
* np.int(a / b) on nonnegative operands is Nat division.
-/

/-- Sample scalar type descriptors: numpy dtype strings <f4, >f4, <i2, >i2. -/
inductive DataType where
  | f32le
  | f32be
  | i16le
  | i16be
deriving DecidableEq, Repr

/-- Itemsize in bytes of a sample scalar dtype. -/
def dtypeItemsize : DataType → Nat
  | .f32le => 4
  | .f32be => 4
  | .i16le => 2
  | .i16be => 2

/-- Result of dtype.newbyteorder(): flips the endianness of the descriptor. -/
def newbyteorder : DataType → DataType
  | .f32le => .f32be
  | .f32be => .f32le
  | .i16le => .i16be
  | .i16be => .i16le

/-- True for the big-endian dtype descriptors. -/
def isBigEndianType : DataType → Bool
  | .f32be => true
  | .i16be => true
  | _ => false

/-- True for the 32-bit float dtype descriptors. -/
def isFloat32Type : DataType → Bool
  | .f32le => true
  | .f32be => true
  | _ => false

/-- True for the 16-bit integer dtype descriptors. -/
def isInt16Type : DataType → Bool
  | .i16le => true
  | .i16be => true
  | _ => false

/-- Byte swap of a 32-bit word given as its unsigned value: the effect of
numpy int32 byteswap() on the underlying four bytes. -/
def byteswap32 (n : Nat) : Nat :=
  n % 256 * 16777216 + n / 256 % 256 * 65536 + n / 65536 % 256 * 256 + n / 16777216 % 256

/-- Raw bytes of an SIO file header as read by load_header: the eight
little-endian-decoded 32-bit words of the integer block, then the 24-byte
name field and the 72-byte comment field (kept as raw byte lists). -/
structure RawHeader where
  w0 : Nat
  w1 : Nat
  w2 : Nat
  w3 : Nat
  w4 : Nat
  w5 : Nat
  w6 : Nat
  w7 : Nat
  name : List Nat
  comment : List Nat
deriving DecidableEq, Repr

/-- Effect of header.byteswap() on the eight int32 header words (the name and
comment fields are read separately and never swapped). -/
def swapAll (r : RawHeader) : RawHeader :=
  { r with
    w0 := byteswap32 r.w0, w1 := byteswap32 r.w1, w2 := byteswap32 r.w2,
    w3 := byteswap32 r.w3, w4 := byteswap32 r.w4, w5 := byteswap32 r.w5,
    w6 := byteswap32 r.w6, w7 := byteswap32 r.w7 }

/-- Parsed header dictionary fileInfo as built by load_header: the eight named
integer fields (post byte-swap when big-endian), the file name, the raw name
and comment bytes, the channel names, the derived sample dtype, and the
subarray length np.int(recordLength / bytesPerPoint) of the record dtype. -/
structure HeaderInfo where
  fid : Nat
  numRecords : Nat
  recordLength : Nat
  numChannels : Nat
  bytesPerPoint : Nat
  isReal : Nat
  samplesPerChannel : Nat
  endianCheck : Nat
  fileName : String
  readName : List Nat
  comment : List Nat
  channelName : List Nat
  dataType : DataType
  samPerRecType : Nat
deriving DecidableEq, Repr

/-- Header words the parse goes on to use: the raw words when the check word
is 32677 (little-endian file), the byte-swapped words otherwise. -/
def effHeader (raw : RawHeader) : RawHeader :=
  if raw.w7 != 32677 then swapAll raw else raw

/-- Sample dtype derived from bytesPerPoint: the little-endian float32 or
int16 descriptor, with newbyteorder applied when the file is big-endian. -/
def deriveDataType (isBigEndian : Bool) (bytesPerPoint : Nat) : DataType :=
  let base : DataType := if bytesPerPoint = 4 then .f32le else .i16le
  if isBigEndian then newbyteorder base else base

/-- load_header: detect byte order from the eighth header word (expected
32677, else its byte-swapped form must be 32677), swap all eight words when
big-endian, default channel names to the index sequence, derive the sample
dtype from bytesPerPoint (4 gives float32, 2 gives int16, anything else is
the unknown-data-type error) with big-endian byte order when swapped, and
record the per-record subarray length recordLength / bytesPerPoint. -/
def load_header (fileName : String) (raw : RawHeader)
    (channelNames : Option (List Nat) := none) : Except String HeaderInfo :=
  if raw.w7 ≠ 32677 ∧ byteswap32 raw.w7 ≠ 32677 then
    .error "Unknown byte order"
  else if (effHeader raw).w4 = 4 ∨ (effHeader raw).w4 = 2 then
    .ok { fid := (effHeader raw).w0, numRecords := (effHeader raw).w1,
          recordLength := (effHeader raw).w2,
          numChannels := (effHeader raw).w3,
          bytesPerPoint := (effHeader raw).w4, isReal := (effHeader raw).w5,
          samplesPerChannel := (effHeader raw).w6,
          endianCheck := (effHeader raw).w7,
          fileName := fileName, readName := raw.name, comment := raw.comment,
          channelName := channelNames.getD (List.range (effHeader raw).w3),
          dataType := deriveDataType (raw.w7 != 32677) (effHeader raw).w4,
          samPerRecType := (effHeader raw).w2 / (effHeader raw).w4 }
  else
    .error "unknown data type"

/-- Itemsize of the derived record dtype np.dtype((dataType, samPerRec)):
the subarray length times the scalar itemsize. -/
def recordTypeItemsize (fi : HeaderInfo) : Nat :=
  fi.samPerRecType * dtypeItemsize fi.dataType

/-- Byte offset at which createSIOMap opens the memory map over the file:
the code passes offset := recordType.itemsize to np.memmap. -/
def createSIOMapOffset (fi : HeaderInfo) : Nat :=
  recordTypeItemsize fi

/-- Size in bytes of the fixed header actually read by load_header:
eight 4-byte integers, the 24-byte name and the 72-byte comment. -/
def headerByteSize : Nat := 8 * 4 + 24 + 72

/-- Shape (records per channel, channel count) of the memory map created by
createSIOMap. -/
def createSIOMapShape (fi : HeaderInfo) : Nat × Nat :=
  (fi.numRecords / fi.numChannels, fi.numChannels)

/-- Ending record index computed by loadFromMap for a windowed request:
int((sampleStart + numSamples) / samPerRec) + 1, one extra record to cover
the remainder of the window. -/
def recEndIndex (sampleStart numSamples samPerRec : Nat) : Nat :=
  (sampleStart + numSamples) / samPerRec + 1

/-- Time-index computation of loadFromMap: yields the quadruple
(recStartI, recEndI, startOffsetI, endOffsetI).  A negative sampleStart
selects the full record range with both offsets zero; a window whose end
exceeds samplesPerChannel is the bounds error; otherwise the start indices
come from divmod(sampleStart, samPerRec), the end record index is
recEndIndex, and endOffsetI = startOffsetI + numSamples. -/
def timeIndices (recPerChan samPerRec samplesPerChannel : Nat)
    (sampleStart : Int) (numSamples : Nat) :
    Except String (Nat × Nat × Nat × Nat) :=
  if sampleStart < 0 then
    .ok (0, recPerChan, 0, 0)
  else if samplesPerChannel < sampleStart.toNat + numSamples then
    .error "Index range exceeds file bounds"
  else
    .ok (sampleStart.toNat / samPerRec,
         recEndIndex sampleStart.toNat numSamples samPerRec,
         sampleStart.toNat % samPerRec,
         sampleStart.toNat % samPerRec + numSamples)

/-- Channel-index computation of loadFromMap: if any requested entry is
negative the selection becomes range(numChannels); otherwise an entry at or
beyond numChannels is the invalid-channel error; otherwise the entries are
used as given. -/
def channelIndices (numChannels : Nat) (channels : List Int) :
    Except String (List Nat) :=
  if channels.any (fun c => decide (c < 0)) then
    .ok (List.range numChannels)
  else if channels.any (fun c => decide ((numChannels : Int) ≤ c)) then
    .error "Requested channels that do not exist"
  else
    .ok (channels.map Int.toNat)

/-- Samples of channel c contributed by the nRecs records starting at record
recStartI, concatenated along the time axis: the result of slicing the map at
[recStartI:recStartI+nRecs, c, :] and concatenating the record axis. -/
def chanRow (sioMap : Nat → Nat → Nat → Int)
    (samPerRec recStartI nRecs c : Nat) : List Int :=
  (List.range nRecs).flatMap (fun j =>
    (List.range samPerRec).map (fun o => sioMap (recStartI + j) c o))

/-- Trim of the concatenated per-channel series, data[:, startOffsetI:endOffsetI]
when endOffsetI is nonzero and the fallback data[:, startOffsetI:-1] when it is
zero (Python slice semantics: clamped drop and take; the -1 stop drops the
last element). -/
def npTrim (startOffsetI endOffsetI : Nat) (row : List Int) : List Int :=
  if endOffsetI ≠ 0 then
    (row.drop startOffsetI).take (endOffsetI - startOffsetI)
  else
    (row.drop startOffsetI).dropLast

/-- Result of loadFromMap: the untouched header dictionary plus the extracted
sample matrix.  rows is channel-major, rows[i] being the trimmed time series
of the i-th selected channel; the value the code finally stores under the
data key is np.squeeze of the transpose of this matrix. -/
structure LoadResult where
  info : HeaderInfo
  rows : List (List Int)
deriving DecidableEq, Repr

/-- Transpose of the channel-major sample matrix, mirroring data.T: the
stored array is time-major, entry [t][i] being sample t of the i-th selected
channel. -/
def npTransposeData (rows : List (List Int)) : List (List Int) :=
  (List.range ((rows.headD []).length)).map (fun t =>
    rows.map (fun row => row.getD t 0))

/-- Shape after np.squeeze: every axis of extent 1 is removed. -/
def npSqueezeShape (shape : List Nat) : List Nat :=
  shape.filter (fun d => d ≠ 1)

/-- Shape of the final stored array np.squeeze(data.T) of a load result:
squeeze applied to (samples per channel, selected channel count). -/
def finalShape (r : LoadResult) : List Nat :=
  npSqueezeShape [(npTransposeData r.rows).length, r.rows.length]

/-- loadFromMap: compute the record window and intra-record offsets, resolve
the channel selection, slice the map at [recStartI:recEndI, channels, :]
(numpy clamps the record slice at the map bound min recEndI recPerChan, and
np.concatenate raises ValueError when that slice selects no record at all),
concatenate the record axis into each channel series and trim it. -/
def loadFromMap (sioMap : Nat → Nat → Nat → Int) (fileInfo : HeaderInfo)
    (sampleStart : Int) (numSamples : Nat) (channels : List Int) :
    Except String LoadResult :=
  let recPerChan := fileInfo.numRecords / fileInfo.numChannels
  let samPerRec := fileInfo.recordLength / fileInfo.bytesPerPoint
  match timeIndices recPerChan samPerRec fileInfo.samplesPerChannel
      sampleStart numSamples with
  | .error e => .error e
  | .ok (recStartI, recEndI, startOffsetI, endOffsetI) =>
    match channelIndices fileInfo.numChannels channels with
    | .error e => .error e
    | .ok selChans =>
      let nRecs := min recEndI recPerChan - recStartI
      if nRecs = 0 then
        .error "need at least one array to concatenate"
      else
        .ok { info := fileInfo,
              rows := selChans.map (fun c =>
                npTrim startOffsetI endOffsetI
                  (chanRow sioMap samPerRec recStartI nRecs c)) }

/-- load_selection: parse the header, build the map over the file body and
extract the requested window.  The file is given as its raw header plus the
abstract record/channel/offset view of its body. -/
def load_selection (fileName : String) (raw : RawHeader)
    (body : Nat → Nat → Nat → Int) (sampleStart : Int) (numSamples : Nat)
    (channels : List Int) (channelNames : Option (List Nat) := none) :
    Except String LoadResult :=
  match load_header fileName raw channelNames with
  | .error e => .error e
  | .ok fi => loadFromMap body fi sampleStart numSamples channels

/-- load_allChannels: the full load, sampleStart and channels both the
sentinel -1 (the scalar -1 channel argument behaves as the singleton list,
since any negative entry replaces the selection by the full range). -/
def load_allChannels (fileName : String) (raw : RawHeader)
    (body : Nat → Nat → Nat → Int)
    (channelNames : Option (List Nat) := none) : Except String LoadResult :=
  load_selection fileName raw body (-1) 0 [-1] channelNames

/-- Sample of channel c at global per-channel position p under the record
layout of the map: record p / samPerRec, intra-record offset p % samPerRec.
This is the reference series the byte-identity claims compare against; it is
forced by the shape (records, channels, samples-per-record) of the map. -/
def chanData (sioMap : Nat → Nat → Nat → Int) (samPerRec c p : Nat) : Int :=
  sioMap (p / samPerRec) c (p % samPerRec)

/-- Geometry of a well-formed SIO file as the claims assume it: at least one
sample per record, at least one record per channel, and samplesPerChannel
consistent with the record geometry. -/
def ValidGeometry (fi : HeaderInfo) : Prop :=
  0 < fi.recordLength / fi.bytesPerPoint ∧
  0 < fi.numRecords / fi.numChannels ∧
  fi.samplesPerChannel =
    (fi.numRecords / fi.numChannels) * (fi.recordLength / fi.bytesPerPoint)

instance (fi : HeaderInfo) : Decidable (ValidGeometry fi) := by
  unfold ValidGeometry
  infer_instance

instance {ε α : Type} [DecidableEq ε] [DecidableEq α] :
    DecidableEq (Except ε α) := fun x y =>
  match x, y with
  | .error a, .error b =>
    if h : a = b then isTrue (by rw [h])
    else isFalse (by intro hc; injection hc; contradiction)
  | .ok a, .ok b =>
    if h : a = b then isTrue (by rw [h])
    else isFalse (by intro hc; injection hc; contradiction)
  | .error _, .ok _ => isFalse (by intro hc; exact Except.noConfusion hc)
  | .ok _, .error _ => isFalse (by intro hc; exact Except.noConfusion hc)

/-- Concrete sample map used by the concrete evaluations: record r, channel c,
offset o holds the value 100 r + 10 c + o. -/
def mEx : Nat → Nat → Nat → Int :=
  fun r c o => 100 * r + 10 * c + o

/-- Concrete well-formed header: two channels, four records of two int16
samples each, so two records per channel and four samples per channel. -/
def fiEx : HeaderInfo :=
  { fid := 0, numRecords := 4, recordLength := 4, numChannels := 2,
    bytesPerPoint := 2, isReal := 0, samplesPerChannel := 4,
    endianCheck := 32677, fileName := "ex.sio", readName := [], comment := [],
    channelName := [0, 1], dataType := .i16le, samPerRecType := 2 }

/-- Raw header whose parse is fiEx. -/
def rawEx : RawHeader :=
  { w0 := 0, w1 := 4, w2 := 4, w3 := 2, w4 := 2, w5 := 0, w6 := 4,
    w7 := 32677, name := [], comment := [] }

/-- Raw header with record length 64 (not 128): int16 samples, 32 per
record. -/
def rawC3 : RawHeader :=
  { w0 := 0, w1 := 4, w2 := 64, w3 := 2, w4 := 2, w5 := 0, w6 := 64,
    w7 := 32677, name := [], comment := [] }

/-- Parse of rawC3. -/
def hC3 : HeaderInfo :=
  { fid := 0, numRecords := 4, recordLength := 64, numChannels := 2,
    bytesPerPoint := 2, isReal := 0, samplesPerChannel := 64,
    endianCheck := 32677, fileName := "c3.sio", readName := [], comment := [],
    channelName := [0, 1], dataType := .i16le, samPerRecType := 32 }

/-- Byte-swapped (big-endian) variant of rawEx. -/
def rawBE : RawHeader := swapAll rawEx

/-- Parse of rawBE: the fields of fiEx with the big-endian int16 dtype. -/
def hBE : HeaderInfo := { fiEx with dataType := .i16be }

/-- Raw header whose check word matches 32677 under neither byte order. -/
def rawBad : RawHeader := { rawEx with w7 := 0 }

/-- Raw header with the unsupported bytesPerPoint value 8. -/
def rawC7 : RawHeader := { rawEx with w4 := 8 }

example : ValidGeometry fiEx := by decide

example : load_header "ex.sio" rawEx (some [0, 1]) = .ok fiEx := by decide

/-! Helper lemmas about the extraction pipeline. -/

lemma flatMap_range_map {α : Type} (f : Nat → Nat → α) (spr K : Nat) :
    (List.range K).flatMap (fun j => (List.range spr).map (fun o => f j o)) =
      (List.range (K * spr)).map (fun t => f (t / spr) (t % spr)) := by
  induction K with
  | zero => simp
  | succ k ih =>
    rw [List.range_succ, List.flatMap_append, ih]
    have h : (k + 1) * spr = k * spr + spr := by ring
    rw [h, List.range_add, List.map_append]
    congr 1
    simp only [List.flatMap_cons, List.flatMap_nil, List.append_nil, List.map_map]
    apply List.map_congr_left
    intro o ho
    have hos : o < spr := List.mem_range.mp ho
    have hspr : 0 < spr := Nat.lt_of_le_of_lt (Nat.zero_le o) hos
    have hdiv : (k * spr + o) / spr = k := by
      rw [Nat.add_comm, Nat.add_mul_div_right o k hspr, Nat.div_eq_of_lt hos,
        Nat.zero_add]
    have hmod : (k * spr + o) % spr = o := by
      rw [Nat.add_comm, Nat.add_mul_mod_self_right, Nat.mod_eq_of_lt hos]
    simp only [Function.comp, hdiv, hmod]

lemma map_range_drop_take {α : Type} (g : Nat → α) (a b L : Nat)
    (h : a + b ≤ L) :
    (((List.range L).map g).drop a).take b =
      (List.range b).map (fun i => g (a + i)) := by
  obtain ⟨d, rfl⟩ : ∃ d, L = a + d := ⟨L - a, by omega⟩
  have hb : b ≤ d := by omega
  rw [List.range_add, List.map_append]
  have hd := List.drop_left ((List.range a).map g)
      (List.map g (List.map (fun x => a + x) (List.range d)))
  rw [List.length_map, List.length_range] at hd
  rw [hd, List.map_map, ← List.map_take, List.take_range, min_eq_left hb]
  rfl

lemma map_range_dropLast {α : Type} (g : Nat → α) (L : Nat) :
    ((List.range L).map g).dropLast = (List.range (L - 1)).map g := by
  rw [List.dropLast_eq_take, List.length_map, List.length_range,
    ← List.map_take, List.take_range, min_eq_left (Nat.sub_le L 1)]

lemma chanRow_eq (m : Nat → Nat → Nat → Int) (spr q K c : Nat) :
    chanRow m spr q K c =
      (List.range (K * spr)).map (fun t => m (q + t / spr) c (t % spr)) :=
  flatMap_range_map (fun j o => m (q + j) c o) spr K

lemma npTrim_take_eq (m : Nat → Nat → Nat → Int) (spr q r K n c : Nat)
    (hr : r < spr) (hne : r + n ≠ 0) (hcov : r + n ≤ K * spr) :
    npTrim r (r + n) (chanRow m spr q K c) =
      (List.range n).map (fun i => chanData m spr c (q * spr + r + i)) := by
  have hspr : 0 < spr := Nat.lt_of_le_of_lt (Nat.zero_le r) hr
  unfold npTrim
  rw [if_pos hne, chanRow_eq, Nat.add_sub_cancel_left,
    map_range_drop_take _ r n _ hcov]
  apply List.map_congr_left
  intro i _
  unfold chanData
  have h1 : q * spr + r + i = r + i + q * spr := by ring
  rw [h1, Nat.add_mul_div_right _ _ hspr, Nat.add_mul_mod_self_right,
    Nat.add_comm ((r + i) / spr) q]

lemma npTrim_zero_eq (m : Nat → Nat → Nat → Int) (spr q K c : Nat) :
    npTrim 0 0 (chanRow m spr q K c) =
      (List.range (K * spr - 1)).map (fun t => m (q + t / spr) c (t % spr)) := by
  unfold npTrim
  rw [if_neg (by simp), chanRow_eq, List.drop_zero, map_range_dropLast]

lemma window_covers (spr recPerChan s n : Nat) (hspr : 0 < spr)
    (hs : s < recPerChan * spr) (hsn : s + n ≤ recPerChan * spr) :
    s % spr + n ≤ (min (recEndIndex s n spr) recPerChan - s / spr) * spr ∧
      s / spr < min (recEndIndex s n spr) recPerChan := by
  have hq : s / spr < recPerChan := (Nat.div_lt_iff_lt_mul hspr).mpr hs
  have hqE : s / spr < recEndIndex s n spr := by
    have h1 : s / spr ≤ (s + n) / spr :=
      Nat.div_le_div_right (Nat.le_add_right s n)
    unfold recEndIndex
    omega
  have hsdm : s / spr * spr + s % spr = s := by
    have h := Nat.div_add_mod s spr
    rw [Nat.mul_comm] at h
    exact h
  have hkey : ∀ B : Nat, s / spr < B → s + n ≤ B * spr →
      s % spr + n ≤ (B - s / spr) * spr := by
    intro B hB hBs
    rw [Nat.sub_mul,
      Nat.le_sub_iff_add_le (Nat.mul_le_mul_right _ (le_of_lt hB))]
    calc s % spr + n + s / spr * spr
        = s / spr * spr + s % spr + n := by ring
      _ = s + n := by rw [hsdm]
      _ ≤ B * spr := hBs
  refine ⟨?_, lt_min hqE hq⟩
  rcases le_or_lt (recEndIndex s n spr) recPerChan with hle | hlt
  · rw [min_eq_left hle]
    refine hkey _ hqE (le_of_lt ?_)
    calc s + n = spr * ((s + n) / spr) + (s + n) % spr :=
          (Nat.div_add_mod _ _).symm
      _ < spr * ((s + n) / spr) + spr :=
          Nat.add_lt_add_left (Nat.mod_lt _ hspr) _
      _ = recEndIndex s n spr * spr := by unfold recEndIndex; ring
  · rw [min_eq_right (le_of_lt hlt)]
    exact hkey _ hq hsn

lemma loadFromMap_ok (m : Nat → Nat → Nat → Int) (fi : HeaderInfo)
    (sampleStart : Int) (numSamples : Nat) (channels : List Int)
    (recStartI recEndI startOffsetI endOffsetI : Nat) (selChans : List Nat)
    (ht : timeIndices (fi.numRecords / fi.numChannels)
        (fi.recordLength / fi.bytesPerPoint) fi.samplesPerChannel
        sampleStart numSamples = .ok (recStartI, recEndI, startOffsetI, endOffsetI))
    (hc : channelIndices fi.numChannels channels = .ok selChans)
    (hr : ¬ (min recEndI (fi.numRecords / fi.numChannels) - recStartI = 0)) :
    loadFromMap m fi sampleStart numSamples channels =
      .ok { info := fi,
            rows := selChans.map (fun c =>
              npTrim startOffsetI endOffsetI
                (chanRow m (fi.recordLength / fi.bytesPerPoint) recStartI
                  (min recEndI (fi.numRecords / fi.numChannels) - recStartI) c)) } := by
  simp only [loadFromMap, ht, hc, if_neg hr]

lemma timeIndices_neg (recPerChan samPerRec samplesPerChannel : Nat)
    (sampleStart : Int) (numSamples : Nat) (hs : sampleStart < 0) :
    timeIndices recPerChan samPerRec samplesPerChannel sampleStart numSamples =
      .ok (0, recPerChan, 0, 0) := by
  simp only [timeIndices, if_pos hs]

lemma timeIndices_window (recPerChan samPerRec samplesPerChannel : Nat)
    (s numSamples : Nat) (hb : ¬ samplesPerChannel < s + numSamples) :
    timeIndices recPerChan samPerRec samplesPerChannel (s : Int) numSamples =
      .ok (s / samPerRec, recEndIndex s numSamples samPerRec,
        s % samPerRec, s % samPerRec + numSamples) := by
  have hs : ¬ ((s : Int) < 0) := by omega
  simp only [timeIndices, if_neg hs, Int.toNat_natCast, if_neg hb]

lemma channelIndices_all (numChannels : Nat) (channels : List Int)
    (hneg : channels.any (fun c => decide (c < 0)) = true) :
    channelIndices numChannels channels = .ok (List.range numChannels) := by
  simp only [channelIndices, hneg, if_pos]

lemma channelIndices_valid (numChannels : Nat) (channels : List Int)
    (hin : ∀ c ∈ channels, 0 ≤ c ∧ c < (numChannels : Int)) :
    channelIndices numChannels channels = .ok (channels.map Int.toNat) := by
  have hneg : channels.any (fun c => decide (c < 0)) = false := by
    simp only [List.any_eq_false, decide_eq_true_eq]
    intro c hc
    exact not_lt.mpr (hin c hc).1
  have hge : channels.any (fun c => decide ((numChannels : Int) ≤ c)) = false := by
    simp only [List.any_eq_false, decide_eq_true_eq]
    intro c hc
    exact not_le.mpr (hin c hc).2
  simp only [channelIndices, hneg, hge, Bool.false_eq_true, if_false]

lemma recEnd_covers (s n spr : Nat) (hspr : 0 < spr) :
    s + n ≤ recEndIndex s n spr * spr := by
  calc s + n = spr * ((s + n) / spr) + (s + n) % spr := (Nat.div_add_mod _ _).symm
    _ ≤ spr * ((s + n) / spr) + spr :=
        Nat.add_le_add_left (le_of_lt (Nat.mod_lt _ hspr)) _
    _ = recEndIndex s n spr * spr := by unfold recEndIndex; ring

lemma deriveDataType_itemsize (big : Bool) (b : Nat) (hb : b = 4 ∨ b = 2) :
    dtypeItemsize (deriveDataType big b) = b := by
  rcases hb with rfl | rfl <;> cases big <;> rfl

lemma deriveDataType_big (big : Bool) (b : Nat) (hb : b = 4 ∨ b = 2) :
    isBigEndianType (deriveDataType big b) = big := by
  rcases hb with rfl | rfl <;> cases big <;> rfl

lemma deriveDataType_float (big : Bool) :
    isFloat32Type (deriveDataType big 4) = true := by
  cases big <;> rfl

lemma deriveDataType_int (big : Bool) :
    isInt16Type (deriveDataType big 2) = true := by
  cases big <;> rfl

lemma load_header_fields (fn : String) (raw : RawHeader)
    (cn : Option (List Nat)) (h : HeaderInfo)
    (hok : load_header fn raw cn = .ok h) :
    (h.bytesPerPoint = 4 ∨ h.bytesPerPoint = 2) ∧
      dtypeItemsize h.dataType = h.bytesPerPoint ∧
      h.samPerRecType = h.recordLength / h.bytesPerPoint ∧
      h.bytesPerPoint = (effHeader raw).w4 ∧
      h.dataType = deriveDataType (raw.w7 != 32677) (effHeader raw).w4 := by
  unfold load_header at hok
  split at hok
  · exact Except.noConfusion hok
  · split at hok
    next hw =>
      injection hok with hok
      subst hok
      exact ⟨hw, deriveDataType_itemsize _ _ hw, rfl, rfl, rfl⟩
    next => exact Except.noConfusion hok

lemma channelIndices_cases (numChannels : Nat) (channels : List Int) :
    channelIndices numChannels channels =
        .error "Requested channels that do not exist" ∨
      ∃ sel, channelIndices numChannels channels = .ok sel := by
  unfold channelIndices
  split
  · exact Or.inr ⟨_, rfl⟩
  · split
    · exact Or.inl rfl
    · exact Or.inr ⟨_, rfl⟩

lemma timeIndices_cases (rpc spr N : Nat) (s : Int) (n : Nat) :
    timeIndices rpc spr N s n = .error "Index range exceeds file bounds" ∨
      ∃ tup, timeIndices rpc spr N s n = .ok tup := by
  unfold timeIndices
  split
  · exact Or.inr ⟨_, rfl⟩
  · split
    · exact Or.inl rfl
    · exact Or.inr ⟨_, rfl⟩

lemma loadFromMap_info (m : Nat → Nat → Nat → Int) (fi : HeaderInfo)
    (s : Int) (n : Nat) (ch : List Int) (r : LoadResult)
    (h : loadFromMap m fi s n ch = .ok r) : r.info = fi := by
  unfold loadFromMap at h
  rcases timeIndices_cases (fi.numRecords / fi.numChannels)
      (fi.recordLength / fi.bytesPerPoint) fi.samplesPerChannel s n with
    ht | ⟨⟨a, b, c, d⟩, ht⟩
  · simp only [ht] at h
    exact Except.noConfusion h
  · simp only [ht] at h
    rcases channelIndices_cases fi.numChannels ch with hc | ⟨sel, hc⟩
    · simp only [hc] at h
      exact Except.noConfusion h
    · simp only [hc] at h
      split at h
      · exact Except.noConfusion h
      · injection h with h
        rw [← h]

lemma div_mul_add_mod (s spr : Nat) : s / spr * spr + s % spr = s := by
  have h := Nat.div_add_mod s spr
  rw [Nat.mul_comm] at h
  exact h

lemma loadFromMap_window (m : Nat → Nat → Nat → Int) (fi : HeaderInfo)
    (s n : Nat) (ch : List Int) (hg : ValidGeometry fi) (hn : 0 < n)
    (hch : ∀ c ∈ ch, 0 ≤ c ∧ c < (fi.numChannels : Int))
    (hsn : s + n ≤ fi.samplesPerChannel) :
    loadFromMap m fi (s : Int) n ch =
      .ok { info := fi,
            rows := ch.map (fun c => (List.range n).map (fun i =>
              chanData m (fi.recordLength / fi.bytesPerPoint) c.toNat (s + i))) } := by
  obtain ⟨hspr, hrpc, hN⟩ := hg
  set spr := fi.recordLength / fi.bytesPerPoint with hsprdef
  set rpc := fi.numRecords / fi.numChannels with hrpcdef
  have hsN : s < rpc * spr := by omega
  have hsnN : s + n ≤ rpc * spr := by omega
  obtain ⟨hcov, hlt⟩ := window_covers spr rpc s n hspr hsN hsnN
  have hb : ¬ fi.samplesPerChannel < s + n := not_lt.mpr hsn
  have hrne : ¬ (min (recEndIndex s n spr) rpc - s / spr = 0) := by omega
  rw [loadFromMap_ok m fi (s : Int) n ch (s / spr) (recEndIndex s n spr)
      (s % spr) (s % spr + n) (ch.map Int.toNat)
      (timeIndices_window _ _ _ s n hb) (channelIndices_valid _ _ hch) hrne]
  have hsdm : s / spr * spr + s % spr = s := div_mul_add_mod s spr
  simp only [Except.ok.injEq, LoadResult.mk.injEq, true_and]
  rw [List.map_map]
  apply List.map_congr_left
  intro c _
  simp only [Function.comp]
  rw [npTrim_take_eq m spr (s / spr) (s % spr)
      (min (recEndIndex s n spr) rpc - s / spr) n c.toNat
      (Nat.mod_lt _ hspr) (by omega) hcov]
  simp only [hsdm]

lemma loadFromMap_full (m : Nat → Nat → Nat → Int) (fi : HeaderInfo)
    (hg : ValidGeometry fi) (sampleStart : Int) (hneg : sampleStart < 0)
    (n : Nat) (ch : List Int) (selChans : List Nat)
    (hc : channelIndices fi.numChannels ch = .ok selChans) :
    loadFromMap m fi sampleStart n ch =
      .ok { info := fi,
            rows := selChans.map (fun c =>
              (List.range (fi.samplesPerChannel - 1)).map
                (fun p => chanData m (fi.recordLength / fi.bytesPerPoint) c p)) } := by
  obtain ⟨hspr, hrpc, hN⟩ := hg
  set spr := fi.recordLength / fi.bytesPerPoint with hsprdef
  set rpc := fi.numRecords / fi.numChannels with hrpcdef
  have hrne : ¬ (min rpc rpc - 0 = 0) := by
    rw [min_self]
    omega
  rw [loadFromMap_ok m fi sampleStart n ch 0 rpc 0 0 selChans
      (timeIndices_neg _ _ _ _ _ hneg) hc hrne]
  simp only [Except.ok.injEq, LoadResult.mk.injEq, true_and]
  apply List.map_congr_left
  intro c _
  rw [min_self, Nat.sub_zero, npTrim_zero_eq, hN]
  apply List.map_congr_left
  intro t _
  simp only [chanData, Nat.zero_add]

/-! Claim theorems. -/

/-- C1, counterexample: on a valid two-channel file with four samples per
channel, the full load (sampleStart = -1) yields only three samples per
channel, and the stored array has squeezed shape [3, 2], not the claimed
[numChannels, samplesPerChannel] = [2, 4]: the last sample of each channel
is missing and the layout is time-major. -/
theorem c1_full_load_counterexample :
    loadFromMap mEx fiEx (-1) 0 [-1] =
      .ok { info := fiEx, rows := [[0, 1, 100], [10, 11, 110]] } ∧
    fiEx.numChannels = 2 ∧ fiEx.samplesPerChannel = 4 ∧
    finalShape { info := fiEx, rows := [[0, 1, 100], [10, 11, 110]] } = [3, 2] ∧
    ([3, 2] : List Nat) ≠ [2, 4] := by
  refine ⟨by decide, by decide, by decide, by decide, by decide⟩

/-- C1, amended: for every valid SIO file, a load with sampleStart = -1
returns, for each selected channel (all channels when some requested entry is
negative), the first samplesPerChannel - 1 samples of that channel in file
order -- every sample except the last one; the stored array is the transpose
of this channel-major matrix, squeezed. -/
theorem c1_full_load (m : Nat → Nat → Nat → Int) (fi : HeaderInfo)
    (hg : ValidGeometry fi) (n : Nat) (ch : List Int) :
    (ch.any (fun c => decide (c < 0)) = true →
      loadFromMap m fi (-1) n ch =
        .ok { info := fi,
              rows := (List.range fi.numChannels).map (fun c =>
                (List.range (fi.samplesPerChannel - 1)).map
                  (fun p => chanData m (fi.recordLength / fi.bytesPerPoint) c p)) }) ∧
    ((∀ c ∈ ch, 0 ≤ c ∧ c < (fi.numChannels : Int)) →
      loadFromMap m fi (-1) n ch =
        .ok { info := fi,
              rows := ch.map (fun c =>
                (List.range (fi.samplesPerChannel - 1)).map
                  (fun p => chanData m (fi.recordLength / fi.bytesPerPoint) c.toNat p)) }) := by
  constructor
  · intro hneg
    exact loadFromMap_full m fi hg (-1) (by norm_num) n ch
      (List.range fi.numChannels) (channelIndices_all _ _ hneg)
  · intro hval
    rw [loadFromMap_full m fi hg (-1) (by norm_num) n ch
      (ch.map Int.toNat) (channelIndices_valid _ _ hval)]
    simp only [List.map_map]
    rfl

/-- C1 witness: the amended full-load theorem applied to the concrete file. -/
theorem c1_full_load_witness :
    loadFromMap mEx fiEx (-1) 0 [-1] =
      .ok { info := fiEx,
            rows := (List.range fiEx.numChannels).map (fun c =>
              (List.range (fiEx.samplesPerChannel - 1)).map
                (fun p => chanData mEx (fiEx.recordLength / fiEx.bytesPerPoint) c p)) } :=
  (c1_full_load mEx fiEx (by decide) 0 [-1]).1 (by decide)

/-- C2, counterexample: the claim quantifies over every numSamples with
sampleStart + numSamples within bounds, but a request for zero samples
starting at a record boundary returns one sample (samplesPerRecord - 1), not
the requested zero. -/
theorem c2_windowed_counterexample :
    loadFromMap mEx fiEx 0 0 [0] = .ok { info := fiEx, rows := [[0]] } ∧
    fiEx.samplesPerChannel = 4 ∧
    ([[(0 : Int)]].map List.length = [1] ∧ (1 : Nat) ≠ 0) := by
  refine ⟨by decide, by decide, by decide, by decide⟩

/-- C2, amended: for every valid SIO file, every window with numSamples at
least 1 and sampleStart + numSamples within samplesPerChannel, and every
in-range channel list, the reader returns exactly numSamples samples per
selected channel, equal to positions sampleStart..sampleStart+numSamples-1
of that channel in the file (hence identical to the corresponding slice of a
full load wherever the full load reaches, the full load stopping one sample
short of the end); the ending record index recEndIndex always covers the
tail of the window. -/
theorem c2_windowed (m : Nat → Nat → Nat → Int) (fi : HeaderInfo)
    (hg : ValidGeometry fi) (s n : Nat) (ch : List Int) (hn : 1 ≤ n)
    (hch : ∀ c ∈ ch, 0 ≤ c ∧ c < (fi.numChannels : Int))
    (hsn : s + n ≤ fi.samplesPerChannel) :
    loadFromMap m fi (s : Int) n ch =
      .ok { info := fi,
            rows := ch.map (fun c => (List.range n).map (fun i =>
              chanData m (fi.recordLength / fi.bytesPerPoint) c.toNat (s + i))) } ∧
    s + n ≤ recEndIndex s n (fi.recordLength / fi.bytesPerPoint) *
      (fi.recordLength / fi.bytesPerPoint) := by
  refine ⟨loadFromMap_window m fi s n ch hg hn hch hsn, ?_⟩
  exact recEnd_covers s n _ hg.1

/-- C2 witness: the amended windowed theorem applied to the concrete file,
window [1, 3), channels 0 and 1. -/
theorem c2_windowed_witness :
    loadFromMap mEx fiEx ((1 : Nat) : Int) 2 [0, 1] =
      .ok { info := fiEx,
            rows := ([0, 1] : List Int).map (fun c => (List.range 2).map (fun i =>
              chanData mEx (fiEx.recordLength / fiEx.bytesPerPoint) c.toNat (1 + i))) } ∧
    1 + 2 ≤ recEndIndex 1 2 (fiEx.recordLength / fiEx.bytesPerPoint) *
      (fiEx.recordLength / fiEx.bytesPerPoint) :=
  c2_windowed mEx fiEx (by decide) 1 2 [0, 1] (by decide) (by decide) (by decide)

/-- C10, counterexample: with numSamples = 0 and sampleStart = 4 =
samplesPerChannel, a nonnegative multiple of samplesPerRecord = 2, the
computed end offset is zero, but the reader does not return
samplesPerRecord - 1 = 1 sample: the record slice is empty and the
concatenation step fails. -/
theorem c10_zero_counterexample :
    loadFromMap mEx fiEx 4 0 [0] =
      .error "need at least one array to concatenate" ∧
    fiEx.recordLength / fiEx.bytesPerPoint = 2 ∧
    4 % (fiEx.recordLength / fiEx.bytesPerPoint) = 0 ∧
    fiEx.samplesPerChannel = 4 := by
  refine ⟨by decide, by decide, by decide, by decide⟩

/-- C10, amended: for a valid file and numSamples = 0 over in-range channels,
when sampleStart is a multiple of samplesPerRecord strictly below
samplesPerChannel the end offset is zero, the fallback trim applies, and the
reader returns samplesPerRecord - 1 samples per channel (all but the last
sample of the one loaded record); at sampleStart = samplesPerChannel the
record slice is empty and the concatenation fails instead; when sampleStart
is not a multiple of samplesPerRecord the reader returns zero samples. -/
theorem c10_zero_samples (m : Nat → Nat → Nat → Int) (fi : HeaderInfo)
    (hg : ValidGeometry fi) (s : Nat) (ch : List Int)
    (hch : ∀ c ∈ ch, 0 ≤ c ∧ c < (fi.numChannels : Int)) :
    ((fi.recordLength / fi.bytesPerPoint) ∣ s → s < fi.samplesPerChannel →
      loadFromMap m fi (s : Int) 0 ch =
        .ok { info := fi,
              rows := ch.map (fun c =>
                (List.range (fi.recordLength / fi.bytesPerPoint - 1)).map
                  (fun i => chanData m (fi.recordLength / fi.bytesPerPoint)
                    c.toNat (s + i))) }) ∧
    (s = fi.samplesPerChannel →
      loadFromMap m fi (s : Int) 0 ch =
        .error "need at least one array to concatenate") ∧
    (¬ (fi.recordLength / fi.bytesPerPoint) ∣ s → s ≤ fi.samplesPerChannel →
      loadFromMap m fi (s : Int) 0 ch =
        .ok { info := fi, rows := ch.map (fun _ => ([] : List Int)) }) := by
  obtain ⟨hspr, hrpc, hN⟩ := hg
  set spr := fi.recordLength / fi.bytesPerPoint with hsprdef
  set rpc := fi.numRecords / fi.numChannels with hrpcdef
  refine ⟨?_, ?_, ?_⟩
  · intro hdvd hlt
    obtain ⟨k, rfl⟩ := hdvd
    have hb : ¬ fi.samplesPerChannel < spr * k + 0 := by omega
    have hr0 : spr * k % spr = 0 := Nat.mul_mod_right spr k
    have hqk : spr * k / spr = k := by
      rw [Nat.mul_comm, Nat.mul_div_cancel _ hspr]
    have hk : k < rpc := by
      have h1 : spr * k < spr * rpc := by
        rw [hN] at hlt
        calc spr * k < rpc * spr := hlt
          _ = spr * rpc := Nat.mul_comm _ _
      exact Nat.lt_of_mul_lt_mul_left h1
    have hE : recEndIndex (spr * k) 0 spr = k + 1 := by
      simp only [recEndIndex, Nat.add_zero, hqk]
    have hmin : min (recEndIndex (spr * k) 0 spr) rpc = k + 1 := by
      rw [hE]
      exact min_eq_left (by omega)
    have hrne : ¬ (min (recEndIndex (spr * k) 0 spr) rpc - spr * k / spr = 0) := by
      rw [hmin, hqk]
      omega
    rw [loadFromMap_ok m fi ((spr * k : Nat) : Int) 0 ch (spr * k / spr)
        (recEndIndex (spr * k) 0 spr) (spr * k % spr) (spr * k % spr + 0)
        (ch.map Int.toNat) (timeIndices_window _ _ _ (spr * k) 0 hb)
        (channelIndices_valid _ _ hch) hrne]
    simp only [Except.ok.injEq, LoadResult.mk.injEq, true_and]
    rw [List.map_map]
    apply List.map_congr_left
    intro c _
    simp only [Function.comp, hr0, Nat.add_zero, hmin, hqk,
      Nat.add_sub_cancel_left]
    rw [npTrim_zero_eq, Nat.one_mul]
    apply List.map_congr_left
    intro t ht
    rw [List.mem_range] at ht
    simp only [← hsprdef] at ht ⊢
    have htl : t < spr := by omega
    simp only [chanData]
    have h1 : (spr * k + t) / spr = k := by
      rw [Nat.mul_comm spr k, Nat.add_comm, Nat.add_mul_div_right t k hspr,
        Nat.div_eq_of_lt htl, Nat.zero_add]
    have h2 : (spr * k + t) % spr = t := by
      rw [Nat.mul_comm spr k, Nat.add_comm, Nat.add_mul_mod_self_right,
        Nat.mod_eq_of_lt htl]
    rw [h1, h2, Nat.div_eq_of_lt htl, Nat.mod_eq_of_lt htl, Nat.add_zero]
  · intro hend
    subst hend
    have hb : ¬ fi.samplesPerChannel < fi.samplesPerChannel + 0 := by omega
    have hq : fi.samplesPerChannel / spr = rpc := by
      rw [hN, Nat.mul_div_cancel _ hspr]
    have hrz : min (recEndIndex fi.samplesPerChannel 0 spr) rpc -
        fi.samplesPerChannel / spr = 0 := by
      rw [hq]
      have h1 : min (recEndIndex fi.samplesPerChannel 0 spr) rpc ≤ rpc :=
        min_le_right _ _
      omega
    simp only [loadFromMap, timeIndices_window rpc spr fi.samplesPerChannel
      fi.samplesPerChannel 0 hb, channelIndices_valid _ _ hch, if_pos hrz]
  · intro hndvd hle
    have hne : s ≠ fi.samplesPerChannel := by
      intro hcontra
      subst hcontra
      exact hndvd ⟨rpc, by rw [hN, Nat.mul_comm]⟩
    have hlt : s < fi.samplesPerChannel := lt_of_le_of_ne hle hne
    have hb : ¬ fi.samplesPerChannel < s + 0 := by omega
    have hr0 : s % spr ≠ 0 := fun hc => hndvd (Nat.dvd_of_mod_eq_zero hc)
    have hq : s / spr < rpc := (Nat.div_lt_iff_lt_mul hspr).mpr (by omega)
    have hqE : s / spr < recEndIndex s 0 spr := by
      unfold recEndIndex
      have h1 : s / spr ≤ (s + 0) / spr := Nat.div_le_div_right (by omega)
      omega
    have hrne : ¬ (min (recEndIndex s 0 spr) rpc - s / spr = 0) := by
      have h1 := lt_min hqE hq
      omega
    rw [loadFromMap_ok m fi (s : Int) 0 ch (s / spr) (recEndIndex s 0 spr)
        (s % spr) (s % spr + 0) (ch.map Int.toNat)
        (timeIndices_window _ _ _ s 0 hb) (channelIndices_valid _ _ hch) hrne]
    simp only [Except.ok.injEq, LoadResult.mk.injEq, true_and]
    rw [List.map_map]
    apply List.map_congr_left
    intro c _
    simp only [Function.comp, Nat.add_zero]
    unfold npTrim
    rw [if_pos hr0, Nat.sub_self, List.take_zero]

/-- C10 witness: the amended theorem at the concrete file, for sampleStart 2
(a record boundary below samplesPerChannel), 4 (= samplesPerChannel) and 1
(not a record boundary). -/
theorem c10_zero_samples_witness :
    loadFromMap mEx fiEx ((2 : Nat) : Int) 0 [0] =
      .ok { info := fiEx,
            rows := ([0] : List Int).map (fun c =>
              (List.range (fiEx.recordLength / fiEx.bytesPerPoint - 1)).map
                (fun i => chanData mEx (fiEx.recordLength / fiEx.bytesPerPoint)
                  c.toNat (2 + i))) } ∧
    loadFromMap mEx fiEx ((4 : Nat) : Int) 0 [0] =
      .error "need at least one array to concatenate" ∧
    loadFromMap mEx fiEx ((1 : Nat) : Int) 0 [0] =
      .ok { info := fiEx, rows := ([0] : List Int).map (fun _ => ([] : List Int)) } :=
  ⟨(c10_zero_samples mEx fiEx (by decide) 2 [0] (by decide)).1 (by decide) (by decide),
   (c10_zero_samples mEx fiEx (by decide) 4 [0] (by decide)).2.1 (by decide),
   (c10_zero_samples mEx fiEx (by decide) 1 [0] (by decide)).2.2 (by decide) (by decide)⟩

/-- C3, counterexample: for a file with recordLength 64, createSIOMap opens
the map at byte offset 64 (the record dtype itemsize), not at the 128-byte
fixed header size, so the mapped body does depend on recordLength. -/
theorem c3_offset_counterexample :
    load_header "c3.sio" rawC3 none = .ok hC3 ∧
    createSIOMapOffset hC3 = 64 ∧ hC3.recordLength = 64 ∧
    headerByteSize = 128 ∧ (64 : Nat) ≠ 128 := by
  refine ⟨by decide, by decide, by decide, by decide, by decide⟩

/-- C3, amended: for every header accepted by load_header, the memory map
over the file body starts at byte offset recordType.itemsize =
(recordLength / bytesPerPoint) * bytesPerPoint -- one record length, equal
to recordLength whenever bytesPerPoint divides recordLength -- rather than
at the 128-byte header size; the two agree only when that value is 128. -/
theorem c3_map_offset (fn : String) (raw : RawHeader) (cn : Option (List Nat))
    (h : HeaderInfo) (hok : load_header fn raw cn = .ok h) :
    createSIOMapOffset h = h.recordLength / h.bytesPerPoint * h.bytesPerPoint ∧
    (h.bytesPerPoint ∣ h.recordLength → createSIOMapOffset h = h.recordLength) := by
  obtain ⟨hbp, hitem, hspr, _, _⟩ := load_header_fields fn raw cn h hok
  constructor
  · simp only [createSIOMapOffset, recordTypeItemsize]
    rw [hitem, hspr]
  · intro hdvd
    simp only [createSIOMapOffset, recordTypeItemsize]
    rw [hitem, hspr, Nat.div_mul_cancel hdvd]

/-- C3 witness: the amended offset theorem at the concrete header. -/
theorem c3_map_offset_witness :
    createSIOMapOffset hC3 =
      hC3.recordLength / hC3.bytesPerPoint * hC3.bytesPerPoint ∧
    (hC3.bytesPerPoint ∣ hC3.recordLength →
      createSIOMapOffset hC3 = hC3.recordLength) :=
  c3_map_offset "c3.sio" rawC3 none hC3 (by decide)

/-- C4: for every request with nonnegative sampleStart, the reader yields the
bounds error exactly when sampleStart + numSamples exceeds samplesPerChannel;
the error result carries no data, so nothing is extracted on failure. -/
theorem c4_bounds_error (m : Nat → Nat → Nat → Int) (fi : HeaderInfo)
    (sampleStart : Int) (n : Nat) (ch : List Int) (hs : 0 ≤ sampleStart) :
    loadFromMap m fi sampleStart n ch =
        .error "Index range exceeds file bounds" ↔
      fi.samplesPerChannel < sampleStart.toNat + n := by
  have hneg : ¬ sampleStart < 0 := not_lt.mpr hs
  constructor
  · intro h
    by_contra hb
    simp only [loadFromMap, timeIndices, if_neg hneg, if_neg hb] at h
    rcases channelIndices_cases fi.numChannels ch with hc | ⟨sel, hc⟩
    · simp only [hc] at h
      exact absurd h (by decide)
    · simp only [hc] at h
      split at h
      · exact absurd h (by decide)
      · exact Except.noConfusion h
  · intro hb
    simp only [loadFromMap, timeIndices, if_neg hneg, if_pos hb]

/-- C4 witness: the bounds-error equivalence at a concrete overlong window. -/
theorem c4_bounds_error_witness :
    loadFromMap mEx fiEx 0 5 [0] = .error "Index range exceeds file bounds" :=
  (c4_bounds_error mEx fiEx 0 5 [0] (by decide)).mpr (by decide)

/-- C5, counterexample: with numChannels = 2, the request [-1, 5] contains
the out-of-range index 5 yet raises no error: the negative entry switches
the selection to all channels and the range check is skipped. -/
theorem c5_channel_counterexample :
    loadFromMap mEx fiEx 0 2 [-1, 5] =
      .ok { info := fiEx, rows := [[0, 1], [10, 11]] } ∧
    fiEx.numChannels = 2 ∧ (2 : Int) ≤ 5 ∧
    loadFromMap mEx fiEx 0 2 [-1, 5] ≠
      .error "Requested channels that do not exist" := by
  refine ⟨by decide, by decide, by decide, by decide⟩

/-- C5, amended: a negative entry anywhere in the selection replaces it by
the full channel range; when no entry is negative, a request containing an
index at or beyond numChannels fails with the invalid-channel error,
provided the time-range check (which runs first) passes. -/
theorem c5_channel_errors (m : Nat → Nat → Nat → Int) (fi : HeaderInfo)
    (s : Int) (n : Nat) (ch : List Int) :
    (ch.any (fun c => decide (c < 0)) = true →
      channelIndices fi.numChannels ch = .ok (List.range fi.numChannels)) ∧
    (ch.any (fun c => decide (c < 0)) = false →
      ch.any (fun c => decide ((fi.numChannels : Int) ≤ c)) = true →
      (s < 0 ∨ s.toNat + n ≤ fi.samplesPerChannel) →
      loadFromMap m fi s n ch = .error "Requested channels that do not exist") := by
  constructor
  · exact channelIndices_all _ _
  · intro hneg hge htime
    have hchan : channelIndices fi.numChannels ch =
        .error "Requested channels that do not exist" := by
      unfold channelIndices
      rw [if_neg (by simp [hneg]), if_pos hge]
    by_cases hlt : s < 0
    · simp only [loadFromMap, timeIndices_neg _ _ _ _ _ hlt, hchan]
    · have hb : ¬ fi.samplesPerChannel < s.toNat + n := by
        rcases htime with h | h
        · exact absurd h hlt
        · exact not_lt.mpr h
      simp only [loadFromMap, timeIndices, if_neg hlt, if_neg hb, hchan]

/-- C5 witness: the amended theorem at a mixed selection and at a purely
out-of-range selection. -/
theorem c5_channel_errors_witness :
    channelIndices fiEx.numChannels [-1, 5] = .ok (List.range fiEx.numChannels) ∧
    loadFromMap mEx fiEx 0 2 [5] = .error "Requested channels that do not exist" :=
  ⟨(c5_channel_errors mEx fiEx 0 2 [-1, 5]).1 (by decide),
   (c5_channel_errors mEx fiEx 0 2 [5]).2 (by decide) (by decide)
     (Or.inr (by decide))⟩

/-- C9: a channel selection containing a negative entry behaves exactly like
the pure all-channel sentinel [-1] -- the remaining entries are never range
checked -- and in particular the invalid-channel error is never raised. -/
theorem c9_mixed_negative_selection (m : Nat → Nat → Nat → Int)
    (fi : HeaderInfo) (s : Int) (n : Nat) (ch : List Int)
    (hneg : ch.any (fun c => decide (c < 0)) = true) :
    loadFromMap m fi s n ch = loadFromMap m fi s n [-1] ∧
    loadFromMap m fi s n ch ≠ .error "Requested channels that do not exist" := by
  have h1 : channelIndices fi.numChannels ch = .ok (List.range fi.numChannels) :=
    channelIndices_all _ _ hneg
  have h2 : channelIndices fi.numChannels [-1] =
      .ok (List.range fi.numChannels) :=
    channelIndices_all _ _ (by decide)
  constructor
  · simp only [loadFromMap, h1, h2]
  · intro hcontra
    unfold loadFromMap at hcontra
    rcases timeIndices_cases (fi.numRecords / fi.numChannels)
        (fi.recordLength / fi.bytesPerPoint) fi.samplesPerChannel s n with
      ht | ⟨⟨a, b, c, d⟩, ht⟩
    · simp only [ht] at hcontra
      exact absurd hcontra (by decide)
    · simp only [ht, h1] at hcontra
      split at hcontra
      · exact absurd hcontra (by decide)
      · exact Except.noConfusion hcontra

/-- C9 witness: the mixed selection [-1, 5] on the concrete file. -/
theorem c9_mixed_negative_selection_witness :
    loadFromMap mEx fiEx 0 2 [-1, 5] = loadFromMap mEx fiEx 0 2 [-1] ∧
    loadFromMap mEx fiEx 0 2 [-1, 5] ≠
      .error "Requested channels that do not exist" :=
  c9_mixed_negative_selection mEx fiEx 0 2 [-1, 5] (by decide)

/-- C8: every successful windowed read returns the parsed header unchanged:
the metadata part of the load_selection result is exactly what a header-only
load_header call on the same file yields, the read only adding the data
field. -/
theorem c8_metadata_roundtrip (fn : String) (raw : RawHeader)
    (body : Nat → Nat → Nat → Int) (s : Int) (n : Nat) (ch : List Int)
    (cn : Option (List Nat)) (r : LoadResult)
    (h : load_selection fn raw body s n ch cn = .ok r) :
    load_header fn raw cn = .ok r.info := by
  unfold load_selection at h
  rcases hh : load_header fn raw cn with e | fi
  · simp only [hh] at h
    exact Except.noConfusion h
  · simp only [hh] at h
    rw [loadFromMap_info body fi s n ch r h]

/-- C8 witness: the round-trip theorem at a concrete successful read. -/
theorem c8_metadata_roundtrip_witness :
    load_header "ex.sio" rawEx none = .ok fiEx :=
  c8_metadata_roundtrip "ex.sio" rawEx mEx 0 2 [0, 1] none
    { info := fiEx, rows := [[0, 1], [10, 11]] } (by decide)

/-- C6: byte order is detected from the eighth header word.  When it equals
32677 the parse (when it succeeds) keeps all eight fields unswapped and the
dtype little-endian; when it differs but a successful parse exists, the
swapped check word necessarily equals 32677, every field is the byte-swapped
word, and the dtype is big-endian; a differing check word whose swap equals
32677 never produces the byte-order error, and one whose swap also differs
always fails with the unknown-byte-order error. -/
theorem c6_byte_order (fn : String) (raw : RawHeader) (cn : Option (List Nat)) :
    (∀ h, load_header fn raw cn = .ok h → raw.w7 = 32677 →
      h.fid = raw.w0 ∧ h.numRecords = raw.w1 ∧ h.recordLength = raw.w2 ∧
        h.numChannels = raw.w3 ∧ h.bytesPerPoint = raw.w4 ∧
        h.isReal = raw.w5 ∧ h.samplesPerChannel = raw.w6 ∧
        h.endianCheck = raw.w7 ∧ isBigEndianType h.dataType = false) ∧
    (∀ h, load_header fn raw cn = .ok h → raw.w7 ≠ 32677 →
      byteswap32 raw.w7 = 32677 ∧
        h.fid = byteswap32 raw.w0 ∧ h.numRecords = byteswap32 raw.w1 ∧
        h.recordLength = byteswap32 raw.w2 ∧
        h.numChannels = byteswap32 raw.w3 ∧
        h.bytesPerPoint = byteswap32 raw.w4 ∧ h.isReal = byteswap32 raw.w5 ∧
        h.samplesPerChannel = byteswap32 raw.w6 ∧
        h.endianCheck = byteswap32 raw.w7 ∧
        isBigEndianType h.dataType = true) ∧
    (raw.w7 ≠ 32677 → byteswap32 raw.w7 = 32677 →
      load_header fn raw cn ≠ .error "Unknown byte order") ∧
    (raw.w7 ≠ 32677 → byteswap32 raw.w7 ≠ 32677 →
      load_header fn raw cn = .error "Unknown byte order") := by
  refine ⟨?_, ?_, ?_, ?_⟩
  · intro h hok hle
    have hbig : (raw.w7 != 32677) = false := by simp [hle]
    have heff : effHeader raw = raw := by simp [effHeader, hbig]
    unfold load_header at hok
    split at hok
    · exact Except.noConfusion hok
    · split at hok
      next hw =>
        injection hok with hok
        subst hok
        rw [heff] at hw
        simp only [heff, hbig, true_and]
        exact deriveDataType_big false raw.w4 hw
      next => exact Except.noConfusion hok
  · intro h hok hne
    have hbig : (raw.w7 != 32677) = true := by simp [hne]
    have heff : effHeader raw = swapAll raw := by simp [effHeader, hbig]
    unfold load_header at hok
    split at hok
    next => exact Except.noConfusion hok
    next hcond =>
      have hsw : byteswap32 raw.w7 = 32677 := by tauto
      split at hok
      next hw =>
        injection hok with hok
        subst hok
        rw [heff] at hw
        simp only [swapAll] at hw
        refine ⟨hsw, ?_⟩
        simp only [heff, hbig, swapAll, true_and]
        exact deriveDataType_big true _ hw
      next => exact Except.noConfusion hok
  · intro hne hsw
    have hcond : ¬ (raw.w7 ≠ 32677 ∧ byteswap32 raw.w7 ≠ 32677) := by tauto
    unfold load_header
    rw [if_neg hcond]
    split
    · intro hcontra
      exact Except.noConfusion hcontra
    · intro hcontra
      injection hcontra with hstr
      exact absurd hstr (by decide)
  · intro hne hsw
    unfold load_header
    rw [if_pos ⟨hne, hsw⟩]

/-- C6 witness: the byte-order theorem at a concrete byte-swapped header and
at a header matching neither byte order. -/
theorem c6_byte_order_witness :
    (byteswap32 rawBE.w7 = 32677 ∧
      hBE.fid = byteswap32 rawBE.w0 ∧ hBE.numRecords = byteswap32 rawBE.w1 ∧
      hBE.recordLength = byteswap32 rawBE.w2 ∧
      hBE.numChannels = byteswap32 rawBE.w3 ∧
      hBE.bytesPerPoint = byteswap32 rawBE.w4 ∧
      hBE.isReal = byteswap32 rawBE.w5 ∧
      hBE.samplesPerChannel = byteswap32 rawBE.w6 ∧
      hBE.endianCheck = byteswap32 rawBE.w7 ∧
      isBigEndianType hBE.dataType = true) ∧
    load_header "bad.sio" rawBad none = .error "Unknown byte order" :=
  ⟨(c6_byte_order "ex.sio" rawBE none).2.1 hBE (by decide) (by decide),
   (c6_byte_order "bad.sio" rawBad none).2.2.2 (by decide) (by decide)⟩

/-- C7: for headers passing the byte-order check, bytesPerPoint 4 parses to
the 32-bit float dtype and 2 to the 16-bit integer dtype; any other value
makes load_header fail with the unknown-data-type error, and load_selection
then fails identically for every file body -- the failure happens during
header parsing, before the memory map is consulted. -/
theorem c7_data_type (fn : String) (raw : RawHeader) (cn : Option (List Nat))
    (hbo : raw.w7 = 32677 ∨ byteswap32 raw.w7 = 32677) :
    ((effHeader raw).w4 = 4 → ∃ h, load_header fn raw cn = .ok h ∧
      isFloat32Type h.dataType = true ∧ dtypeItemsize h.dataType = 4) ∧
    ((effHeader raw).w4 = 2 → ∃ h, load_header fn raw cn = .ok h ∧
      isInt16Type h.dataType = true ∧ dtypeItemsize h.dataType = 2) ∧
    ((effHeader raw).w4 ≠ 4 → (effHeader raw).w4 ≠ 2 →
      load_header fn raw cn = .error "unknown data type" ∧
      ∀ (body : Nat → Nat → Nat → Int) (s : Int) (nn : Nat) (ch : List Int),
        load_selection fn raw body s nn ch cn = .error "unknown data type") := by
  have hcond : ¬ (raw.w7 ≠ 32677 ∧ byteswap32 raw.w7 ≠ 32677) := by tauto
  refine ⟨?_, ?_, ?_⟩
  · intro h4
    have hex : ∃ h, load_header fn raw cn = .ok h := by
      unfold load_header
      rw [if_neg hcond, if_pos (Or.inl h4)]
      exact ⟨_, rfl⟩
    obtain ⟨h, hok⟩ := hex
    obtain ⟨hbp, hitem, hsprt, hbpw, hdt⟩ := load_header_fields fn raw cn h hok
    refine ⟨h, hok, ?_, ?_⟩
    · rw [hdt, h4]
      exact deriveDataType_float _
    · rw [hdt, h4]
      exact deriveDataType_itemsize _ _ (Or.inl rfl)
  · intro h2
    have hex : ∃ h, load_header fn raw cn = .ok h := by
      unfold load_header
      rw [if_neg hcond, if_pos (Or.inr h2)]
      exact ⟨_, rfl⟩
    obtain ⟨h, hok⟩ := hex
    obtain ⟨hbp, hitem, hsprt, hbpw, hdt⟩ := load_header_fields fn raw cn h hok
    refine ⟨h, hok, ?_, ?_⟩
    · rw [hdt, h2]
      exact deriveDataType_int _
    · rw [hdt, h2]
      exact deriveDataType_itemsize _ _ (Or.inr rfl)
  · intro h4 h2
    have herr : load_header fn raw cn = .error "unknown data type" := by
      unfold load_header
      rw [if_neg hcond, if_neg (by tauto)]
    refine ⟨herr, ?_⟩
    intro body s nn ch
    unfold load_selection
    simp only [herr]

/-- C7 witness: the data-type theorem at a concrete header with the
unsupported bytesPerPoint value 8. -/
theorem c7_data_type_witness :
    load_header "c7.sio" rawC7 none = .error "unknown data type" ∧
    load_selection "c7.sio" rawC7 mEx 0 1 [0] none =
      .error "unknown data type" :=
  ⟨((c7_data_type "c7.sio" rawC7 none (Or.inl (by decide))).2.2
      (by decide) (by decide)).1,
   ((c7_data_type "c7.sio" rawC7 none (Or.inl (by decide))).2.2
      (by decide) (by decide)).2 mEx 0 1 [0]⟩
